import Mathlib

/-!
Verification development for the bimanual gesture-interpretation and
virtual-input-injection pipeline of the gallery application.

The definitions below are a shallow embedding of the gesture core found in
`src/utils.ts` (math helpers, the `EMA` class, the interaction constants, and
the frame-loop functions `predictWebcam`, `resetDrag`, `processLeftHand`,
`processRightHand`, `handleCursorInteraction`) together with the `AppMode` and
`CursorState` types from the shared type module.  JavaScript numbers are
modelled as exact rationals (`ℚ`, and `ℝ` for the one analytic statement about
EMA convergence); `Date.now()` timestamps as integers; DOM elements as natural
number identifiers; the DOM query functions (`document.elementFromPoint`,
`document.getElementById`, `Element.contains`, viewport dimensions) as an
explicit environment record; and every dispatched synthetic event as an entry
of an event trace list.

The geometric pre-processing (`distance3D` of raw landmarks, which feeds the
pinch-distance scalars, and the per-finger extension count of the open-palm
detector) is factored out: the hand-observation records below carry the
thumb-tip-to-index-tip distance and the extended-finger count that the source
computes from the 21 raw landmarks, and the processors consume them exactly as
the source consumes the corresponding local variables.
-/

namespace Gesture

/-- Application mode enumeration from the shared type module. -/
inductive AppMode where
  | BROWSE
  | FOCUS
  | AGGREGATE
deriving DecidableEq, Repr

/-- Exponential moving average smoother, the `EMA` class of `src/utils.ts`:
a fixed blend coefficient `alpha` and an optional stored value (`null` before
the first update). Polymorphic over the number field so that the same
translation serves the exact-rational pipeline model and the real-valued
convergence statement. -/
structure EMA (K : Type) where
  alpha : K
  value : Option K
deriving DecidableEq, Repr

/-- Translation of `EMA.update`: the first update stores and returns its input
verbatim; later updates blend `alpha * new + (1 - alpha) * stored`.  The source
method mutates the instance and returns the value; here the pair (returned
value, updated instance) is returned. -/
def EMA.update {K : Type} [Field K] (e : EMA K) (newValue : K) : K × EMA K :=
  match e.value with
  | none => (newValue, { e with value := some newValue })
  | some v =>
      let v2 := e.alpha * newValue + (1 - e.alpha) * v
      (v2, { e with value := some v2 })

/-- Translation of `EMA.reset`: clears the stored value. -/
def EMA.reset {K : Type} (e : EMA K) : EMA K := { e with value := none }

/-- Translation of the `lerp` helper of `src/utils.ts`. -/
def lerp {K : Type} [Field K] (start finish t : K) : K := start * (1 - t) + finish * t

/-- Interaction tuning constant `PINCH_THRESHOLD_ON` (distance to trigger a
click). -/
def PINCH_THRESHOLD_ON : ℚ := 0.04

/-- Interaction tuning constant `PINCH_THRESHOLD_OFF` (distance to release a
click; hysteresis). -/
def PINCH_THRESHOLD_OFF : ℚ := 0.055

/-- Interaction tuning constant `CURSOR_SMOOTHING`. -/
def CURSOR_SMOOTHING : ℚ := 0.5

/-- Interaction tuning constant `ANCHOR_STRENGTH` (95% anchor, 5% realtime
during a pinch). -/
def ANCHOR_STRENGTH : ℚ := 0.95

/-- Cursor state record from the shared type module (`x`, `y`, `active`,
`clicking`, `lastClickTime`). -/
structure CursorState where
  x : ℚ
  y : ℚ
  active : Bool
  clicking : Bool
  lastClickTime : ℤ
deriving DecidableEq, Repr

/-- Synthetic event kinds dispatched by the virtual input layer. -/
inductive EvKind where
  | mouseout
  | pointerout
  | mouseover
  | pointerover
  | pointermove
  | pointerdown
  | mousedown
  | pointerup
  | mouseup
  | click
deriving DecidableEq, Repr

/-- One dispatched synthetic event: target element id, event kind, and the
client coordinates when the source constructs the event with
`clientX`/`clientY` (the `pointerup` synthesized by `resetDrag` carries no
coordinates, hence the `Option`). -/
structure Ev where
  target : ℕ
  kind : EvKind
  pos : Option (ℚ × ℚ)
deriving DecidableEq, Repr

/-- DOM environment read by the pipeline within one frame:
`document.elementFromPoint`, the viewport dimensions, the
`month-scroll-container` lookup, and DOM containment between elements. -/
structure Env where
  innerWidth : ℚ
  innerHeight : ℚ
  elemAt : ℚ → ℚ → Option ℕ
  scrollContainer : Option ℕ
  contains : ℕ → ℕ → Bool

/-- Mutable state of the event-simulation refs (`isDraggingUI`, `dragTarget`,
`lastHoveredElement`) together with the scroll position of the sidebar
container that `handleCursorInteraction` mutates. -/
structure DispatchState where
  isDraggingUI : Bool
  dragTarget : Option ℕ
  lastHoveredElement : Option ℕ
  scrollTop : ℚ
deriving DecidableEq, Repr

/-- Per-frame data for a Left hand observation: the thumb-tip-to-index-tip
distance (`distance3D(landmarks[4], landmarks[8])`), the number of extended
fingers computed from the wrist/tip/pip comparisons, and the horizontal
coordinate of the middle-finger base (`landmarks[9].x`). -/
structure LeftObs where
  pinchDist : ℚ
  extendedCount : ℕ
  middleX : ℚ
deriving DecidableEq, Repr

/-- Per-frame data for a Right hand observation: index-tip coordinates
(`landmarks[8].x`, `landmarks[8].y`) and the thumb-tip-to-index-tip distance
(`distance3D(landmarks[4], landmarks[8])`). -/
structure RightObs where
  indexX : ℚ
  indexY : ℚ
  pinchDist : ℚ
deriving DecidableEq, Repr

/-- One detected hand with its handedness label, as delivered per frame by the
landmark detector. -/
inductive HandObs where
  | left (o : LeftObs)
  | right (o : RightObs)
deriving DecidableEq, Repr

/-- Whether an observation carries the Left handedness label. -/
def HandObs.isLeft : HandObs → Bool
  | .left _ => true
  | .right _ => false

/-- Whether an observation carries the Right handedness label. -/
def HandObs.isRight : HandObs → Bool
  | .left _ => false
  | .right _ => true

/-- The complete mutable state of the gesture pipeline: the React `mode` and
`scrollOffset` states, the left-hand smoothers, the right-hand cursor
smoothers and pinch/anchor refs, the published cursor state, the event
simulation refs, and the last-seen-Left-hand timestamp. -/
structure AppState where
  mode : AppMode
  scrollOffset : ℚ
  leftHandX_EMA : EMA ℚ
  leftPinchSmoother : EMA ℚ
  leftOpenPalmSmoother : EMA ℚ
  cursorX_EMA : EMA ℚ
  cursorY_EMA : EMA ℚ
  isPinchingRef : Bool
  anchorPos : Option (ℚ × ℚ)
  lastCursorPos : ℚ × ℚ
  cursor : CursorState
  dispatch : DispatchState
  lastLeftHandTime : ℤ
deriving DecidableEq, Repr

/-- The mode transition evaluated inside `processLeftHand`'s `setMode`
callback: pinch-active (smoothed pinch value above 0.6) forces FOCUS; else if
the current mode is FOCUS and the smoothed pinch value has fallen below 0.4
the mode falls to BROWSE or AGGREGATE according to the open-palm signal; else
the open-palm signal alone picks BROWSE over AGGREGATE.  `pinchVal` and
`openVal` are the smoothed pinch and open-palm signals; the source computes
`isPinchActive = pinchVal > 0.6` and `isOpenActive = openVal > 0.6` just
before the callback. -/
def decideMode (currentMode : AppMode) (pinchVal openVal : ℚ) : AppMode :=
  if pinchVal > 0.6 then AppMode.FOCUS
  else if currentMode = AppMode.FOCUS ∧ pinchVal < 0.4 then
    (if openVal > 0.6 then AppMode.BROWSE else AppMode.AGGREGATE)
  else if openVal > 0.6 then AppMode.BROWSE
  else AppMode.AGGREGATE

/-- Translation of `processLeftHand`: early return while a UI drag is in
progress; otherwise update the pinch and open-palm smoothers from the raw
boolean signals (`pinchDist < 0.05`, `extendedCount >= 3`), run the mode
transition, update the horizontal smoother on the mirrored middle-base
coordinate, and, if the just-decided mode is BROWSE, accumulate
`scrollOffset += (smoothedX - 0.5) * 0.15`. -/
def processLeftHand (o : LeftObs) (s : AppState) : AppState :=
  if s.dispatch.isDraggingUI then s
  else
    let isPinchingRaw : ℚ := if o.pinchDist < 0.05 then 1 else 0
    let pu := s.leftPinchSmoother.update isPinchingRaw
    let isOpenRaw : ℚ := if 3 ≤ o.extendedCount then 1 else 0
    let ou := s.leftOpenPalmSmoother.update isOpenRaw
    let mode1 := decideMode s.mode pu.1 ou.1
    let screenX := 1 - o.middleX
    let xu := s.leftHandX_EMA.update screenX
    let scroll1 :=
      if mode1 = AppMode.BROWSE then s.scrollOffset + (xu.1 - 0.5) * 0.15
      else s.scrollOffset
    { s with
        leftPinchSmoother := pu.2
        leftOpenPalmSmoother := ou.2
        leftHandX_EMA := xu.2
        mode := mode1
        scrollOffset := scroll1 }

/-- The pinch hysteresis of `processRightHand` (step 2): a distance below
`PINCH_THRESHOLD_ON` forces pinching, a distance above `PINCH_THRESHOLD_OFF`
releases it, anything else keeps the previous state. -/
def pinchHysteresis (wasPinching : Bool) (pinchDist : ℚ) : Bool :=
  if pinchDist < PINCH_THRESHOLD_ON then true
  else if pinchDist > PINCH_THRESHOLD_OFF then false
  else wasPinching

/-- The hover-simulation events of `handleCursorInteraction`: on a change of
hovered element, leave events (`mouseout`, `pointerout`) for the old element
and enter events (`mouseover`, `pointerover`) for the new one; in every frame
with an element under the cursor, a `pointermove` at the cursor position. -/
def hoverEvents (element lastHovered : Option ℕ) (x y : ℚ) : List Ev :=
  (if element ≠ lastHovered then
    (match lastHovered with
     | some old => [⟨old, EvKind.mouseout, none⟩, ⟨old, EvKind.pointerout, none⟩]
     | none => []) ++
    (match element with
     | some e => [⟨e, EvKind.mouseover, none⟩, ⟨e, EvKind.pointerover, none⟩]
     | none => [])
   else []) ++
  (match element with
   | some e => [⟨e, EvKind.pointermove, some (x, y)⟩]
   | none => [])

/-- Translation of `handleCursorInteraction`: resolve the element under the
cursor, fire the hover simulation, then the click/drag edge logic — rising
edge captures the element as drag target and fires `pointerdown`/`mousedown`;
a sustained press scrolls the sidebar container when the drag target sits
inside it and forwards `pointermove` to the original drag target; the falling
edge fires `pointerup`/`mouseup`/`click` on the original drag target and
clears the drag session. -/
def handleCursorInteraction (env : Env) (x y deltaY : ℚ) (isDown wasDown : Bool)
    (ds : DispatchState) : DispatchState × List Ev :=
  let element := env.elemAt x y
  let hEvs := hoverEvents element ds.lastHoveredElement x y
  let ds1 := { ds with lastHoveredElement := element }
  if isDown && !wasDown then
    match element with
    | some e =>
        ({ ds1 with isDraggingUI := true, dragTarget := some e },
          hEvs ++ [⟨e, EvKind.pointerdown, some (x, y)⟩, ⟨e, EvKind.mousedown, some (x, y)⟩])
    | none => (ds1, hEvs)
  else if isDown && wasDown && ds.isDraggingUI then
    match ds.dragTarget with
    | some t =>
        let scrolled : Bool :=
          match env.scrollContainer with
          | some c => c = t || env.contains c t
          | none => false
        let st := if scrolled then ds1.scrollTop - deltaY else ds1.scrollTop
        ({ ds1 with scrollTop := st }, hEvs ++ [⟨t, EvKind.pointermove, some (x, y)⟩])
    | none => (ds1, hEvs)
  else if !isDown && wasDown && ds.isDraggingUI then
    match ds.dragTarget with
    | some t =>
        ({ ds1 with isDraggingUI := false, dragTarget := none },
          hEvs ++ [⟨t, EvKind.pointerup, some (x, y)⟩, ⟨t, EvKind.mouseup, some (x, y)⟩,
            ⟨t, EvKind.click, some (x, y)⟩])
    | none => (ds1, hEvs)
  else (ds1, hEvs)

/-- Translation of `processRightHand`: smooth the mirrored index-tip position,
run the pinch hysteresis, capture the anchor on the rising edge, blend the
output toward the anchor while pinching (clearing the anchor on the falling
edge), track the vertical delta, publish the cursor state (`active` true,
`clicking` the debounced pinch, `lastClickTime` refreshed on the rising edge),
and dispatch the interaction events. -/
def processRightHand (env : Env) (now : ℤ) (o : RightObs) (s : AppState) :
    AppState × List Ev :=
  let rawX := (1 - o.indexX) * env.innerWidth
  let rawY := o.indexY * env.innerHeight
  let ux := s.cursorX_EMA.update rawX
  let uy := s.cursorY_EMA.update rawY
  let wasPinching := s.isPinchingRef
  let isPinchingNow := pinchHysteresis wasPinching o.pinchDist
  let anchor1 :=
    if isPinchingNow && !wasPinching then some (ux.1, uy.1) else s.anchorPos
  let blended :=
    if isPinchingNow then
      match anchor1 with
      | some a => (lerp a.1 ux.1 (1 - ANCHOR_STRENGTH), lerp a.2 uy.1 (1 - ANCHOR_STRENGTH))
      | none => (ux.1, uy.1)
    else (ux.1, uy.1)
  let anchor2 :=
    if isPinchingNow then anchor1
    else if wasPinching then none
    else anchor1
  let deltaY := blended.2 - s.lastCursorPos.2
  let cursor1 : CursorState :=
    { x := blended.1
      y := blended.2
      active := true
      clicking := isPinchingNow
      lastClickTime := if isPinchingNow && !wasPinching then now else s.cursor.lastClickTime }
  let hd := handleCursorInteraction env blended.1 blended.2 deltaY isPinchingNow wasPinching s.dispatch
  ({ s with
      cursorX_EMA := ux.2
      cursorY_EMA := uy.2
      isPinchingRef := isPinchingNow
      anchorPos := anchor2
      lastCursorPos := blended
      cursor := cursor1
      dispatch := hd.1 }, hd.2)

/-- Translation of `resetDrag`: if a UI drag is in progress with a live
target, dispatch a coordinate-less `pointerup` on the target and clear the
drag refs. -/
def resetDrag (s : AppState) : AppState × List Ev :=
  if s.dispatch.isDraggingUI then
    match s.dispatch.dragTarget with
    | some t =>
        ({ s with dispatch := { s.dispatch with isDraggingUI := false, dragTarget := none } },
          [⟨t, EvKind.pointerup, none⟩])
    | none => (s, [])
  else (s, [])

/-- The per-hand dispatch loop of `predictWebcam`: each detected hand is
routed to `processLeftHand` or `processRightHand` according to its handedness
label, in detection order, accumulating the dispatched events. -/
def processHands (env : Env) (now : ℤ) (hands : List HandObs) (s : AppState) :
    AppState × List Ev :=
  match hands with
  | [] => (s, [])
  | .left o :: rest => processHands env now rest (processLeftHand o s)
  | .right o :: rest =>
      let pr := processRightHand env now o s
      let tail := processHands env now rest pr.1
      (tail.1, pr.2 ++ tail.2)

/-- Translation of the per-frame result handling of `predictWebcam`: with a
non-empty detection, process each hand by handedness, refresh the
last-seen-Left timestamp, force AGGREGATE when the Left hand has been absent
for more than 500 ms, and deactivate the cursor and tear down any drag when no
Right hand was found; with no detection, apply the idle timeout, deactivate
the cursor, and tear down any drag. -/
def frameStep (env : Env) (now : ℤ) (hands : List HandObs) (s : AppState) :
    AppState × List Ev :=
  if hands ≠ [] then
    let leftHandFound := hands.any HandObs.isLeft
    let rightHandFound := hands.any HandObs.isRight
    let p := processHands env now hands s
    let s1 := p.1
    let s2 := if leftHandFound then { s1 with lastLeftHandTime := now } else s1
    let s3 :=
      if ¬leftHandFound ∧ now - s2.lastLeftHandTime > 500 then
        { s2 with mode := if s2.mode ≠ AppMode.AGGREGATE then AppMode.AGGREGATE else s2.mode }
      else s2
    if ¬rightHandFound then
      let s4 := { s3 with cursor := { s3.cursor with active := false, clicking := false } }
      let rd := resetDrag s4
      (rd.1, p.2 ++ rd.2)
    else (s3, p.2)
  else
    let s1 :=
      if now - s.lastLeftHandTime > 500 then
        { s with mode := if s.mode ≠ AppMode.AGGREGATE then AppMode.AGGREGATE else s.mode }
      else s
    let s2 := { s1 with cursor := { s1.cursor with active := false } }
    let rd := resetDrag s2
    (rd.1, rd.2)

/-- Squared Euclidean distance between two planar points, used to state the
anchoring claim about which of two points the blended output is closer to. -/
def dist2 (p q : ℚ × ℚ) : ℚ := (p.1 - q.1) ^ 2 + (p.2 - q.2) ^ 2

/-- A frame's detection list holding at most one observation per handedness
label, in either detection order, as the detector contract provides. -/
def mkFrame (oL : Option LeftObs) (oR : Option RightObs) (leftFirst : Bool) : List HandObs :=
  if leftFirst then (oL.map HandObs.left).toList ++ (oR.map HandObs.right).toList
  else (oR.map HandObs.right).toList ++ (oL.map HandObs.left).toList

/-- The initial pipeline state: the React initial states (`AGGREGATE` mode,
zero scroll offset, inactive cursor) and the initial refs (fresh smoothers
with the source's coefficients, no pinch, no anchor, no drag, zero
timestamps). -/
def initialState : AppState where
  mode := AppMode.AGGREGATE
  scrollOffset := 0
  leftHandX_EMA := ⟨0.1, none⟩
  leftPinchSmoother := ⟨0.2, none⟩
  leftOpenPalmSmoother := ⟨0.2, none⟩
  cursorX_EMA := ⟨CURSOR_SMOOTHING, none⟩
  cursorY_EMA := ⟨CURSOR_SMOOTHING, none⟩
  isPinchingRef := false
  anchorPos := none
  lastCursorPos := (0, 0)
  cursor := ⟨0, 0, false, false, 0⟩
  dispatch := ⟨false, none, none, 0⟩
  lastLeftHandTime := 0

/-- A fixed sample environment for concrete scenarios: unit viewport, element
`1` everywhere under the cursor, no sidebar scroll container. -/
def env1 : Env where
  innerWidth := 1
  innerHeight := 1
  elemAt := fun _ _ => some 1
  scrollContainer := none
  contains := fun _ _ => false

/-! ## Frame lemmas: which state fields each processor reads and writes -/

@[simp] lemma processLeftHand_cursorX (o : LeftObs) (s : AppState) :
    (processLeftHand o s).cursorX_EMA = s.cursorX_EMA := by
  unfold processLeftHand; split <;> rfl

@[simp] lemma processLeftHand_cursorY (o : LeftObs) (s : AppState) :
    (processLeftHand o s).cursorY_EMA = s.cursorY_EMA := by
  unfold processLeftHand; split <;> rfl

@[simp] lemma processLeftHand_isPinchingRef (o : LeftObs) (s : AppState) :
    (processLeftHand o s).isPinchingRef = s.isPinchingRef := by
  unfold processLeftHand; split <;> rfl

@[simp] lemma processLeftHand_anchorPos (o : LeftObs) (s : AppState) :
    (processLeftHand o s).anchorPos = s.anchorPos := by
  unfold processLeftHand; split <;> rfl

@[simp] lemma processLeftHand_lastCursorPos (o : LeftObs) (s : AppState) :
    (processLeftHand o s).lastCursorPos = s.lastCursorPos := by
  unfold processLeftHand; split <;> rfl

@[simp] lemma processLeftHand_cursor (o : LeftObs) (s : AppState) :
    (processLeftHand o s).cursor = s.cursor := by
  unfold processLeftHand; split <;> rfl

@[simp] lemma processLeftHand_dispatch (o : LeftObs) (s : AppState) :
    (processLeftHand o s).dispatch = s.dispatch := by
  unfold processLeftHand; split <;> rfl

@[simp] lemma processLeftHand_lastLeftHandTime (o : LeftObs) (s : AppState) :
    (processLeftHand o s).lastLeftHandTime = s.lastLeftHandTime := by
  unfold processLeftHand; split <;> rfl

@[simp] lemma processRightHand_mode (env : Env) (now : ℤ) (o : RightObs) (s : AppState) :
    (processRightHand env now o s).1.mode = s.mode := rfl

@[simp] lemma processRightHand_scrollOffset (env : Env) (now : ℤ) (o : RightObs) (s : AppState) :
    (processRightHand env now o s).1.scrollOffset = s.scrollOffset := rfl

@[simp] lemma processRightHand_leftHandX (env : Env) (now : ℤ) (o : RightObs) (s : AppState) :
    (processRightHand env now o s).1.leftHandX_EMA = s.leftHandX_EMA := rfl

@[simp] lemma processRightHand_leftPinchSmoother (env : Env) (now : ℤ) (o : RightObs) (s : AppState) :
    (processRightHand env now o s).1.leftPinchSmoother = s.leftPinchSmoother := rfl

@[simp] lemma processRightHand_leftOpenPalmSmoother (env : Env) (now : ℤ) (o : RightObs) (s : AppState) :
    (processRightHand env now o s).1.leftOpenPalmSmoother = s.leftOpenPalmSmoother := rfl

@[simp] lemma processRightHand_lastLeftHandTime (env : Env) (now : ℤ) (o : RightObs) (s : AppState) :
    (processRightHand env now o s).1.lastLeftHandTime = s.lastLeftHandTime := rfl

@[simp] lemma processRightHand_isPinchingRef (env : Env) (now : ℤ) (o : RightObs) (s : AppState) :
    (processRightHand env now o s).1.isPinchingRef = pinchHysteresis s.isPinchingRef o.pinchDist := rfl

@[simp] lemma processRightHand_cursor_active (env : Env) (now : ℤ) (o : RightObs) (s : AppState) :
    (processRightHand env now o s).1.cursor.active = true := rfl

@[simp] lemma processRightHand_cursor_clicking (env : Env) (now : ℤ) (o : RightObs) (s : AppState) :
    (processRightHand env now o s).1.cursor.clicking = pinchHysteresis s.isPinchingRef o.pinchDist := rfl

@[simp] lemma processRightHand_cursor_lastClickTime (env : Env) (now : ℤ) (o : RightObs) (s : AppState) :
    (processRightHand env now o s).1.cursor.lastClickTime =
      (if pinchHysteresis s.isPinchingRef o.pinchDist && !s.isPinchingRef then now
       else s.cursor.lastClickTime) := rfl

@[simp] lemma resetDrag_mode (s : AppState) : (resetDrag s).1.mode = s.mode := by
  unfold resetDrag; split
  · split <;> rfl
  · rfl

@[simp] lemma resetDrag_cursor (s : AppState) : (resetDrag s).1.cursor = s.cursor := by
  unfold resetDrag; split
  · split <;> rfl
  · rfl

@[simp] lemma resetDrag_isPinchingRef (s : AppState) :
    (resetDrag s).1.isPinchingRef = s.isPinchingRef := by
  unfold resetDrag; split
  · split <;> rfl
  · rfl

@[simp] lemma resetDrag_anchorPos (s : AppState) : (resetDrag s).1.anchorPos = s.anchorPos := by
  unfold resetDrag; split
  · split <;> rfl
  · rfl

@[simp] lemma resetDrag_lastLeftHandTime (s : AppState) :
    (resetDrag s).1.lastLeftHandTime = s.lastLeftHandTime := by
  unfold resetDrag; split
  · split <;> rfl
  · rfl

lemma processHands_right_inv (env : Env) (now : ℤ) (hands : List HandObs) :
    ∀ s : AppState, hands.any HandObs.isRight = false →
      (processHands env now hands s).1.cursorX_EMA = s.cursorX_EMA ∧
      (processHands env now hands s).1.cursorY_EMA = s.cursorY_EMA ∧
      (processHands env now hands s).1.isPinchingRef = s.isPinchingRef ∧
      (processHands env now hands s).1.anchorPos = s.anchorPos ∧
      (processHands env now hands s).1.lastCursorPos = s.lastCursorPos ∧
      (processHands env now hands s).1.cursor = s.cursor ∧
      (processHands env now hands s).1.dispatch = s.dispatch ∧
      (processHands env now hands s).2 = [] := by
  induction hands with
  | nil => intro s _; simp [processHands]
  | cons hd rest ih =>
    intro s h
    cases hd with
    | left o =>
      have h2 : rest.any HandObs.isRight = false := by
        simpa [HandObs.isRight] using h
      have := ih (processLeftHand o s) h2
      simpa [processHands] using this
    | right o => simp [HandObs.isRight] at h

lemma processHands_left_inv (env : Env) (now : ℤ) (hands : List HandObs) :
    ∀ s : AppState, hands.any HandObs.isLeft = false →
      (processHands env now hands s).1.mode = s.mode ∧
      (processHands env now hands s).1.scrollOffset = s.scrollOffset ∧
      (processHands env now hands s).1.leftHandX_EMA = s.leftHandX_EMA ∧
      (processHands env now hands s).1.leftPinchSmoother = s.leftPinchSmoother ∧
      (processHands env now hands s).1.leftOpenPalmSmoother = s.leftOpenPalmSmoother := by
  induction hands with
  | nil => intro s _; simp [processHands]
  | cons hd rest ih =>
    intro s h
    cases hd with
    | left o => simp [HandObs.isLeft] at h
    | right o =>
      have h2 : rest.any HandObs.isLeft = false := by
        simpa [HandObs.isLeft] using h
      have := ih (processRightHand env now o s).1 h2
      simpa [processHands] using this

lemma processHands_lastLeftHandTime (env : Env) (now : ℤ) (hands : List HandObs) :
    ∀ s : AppState,
      (processHands env now hands s).1.lastLeftHandTime = s.lastLeftHandTime := by
  induction hands with
  | nil => intro s; simp [processHands]
  | cons hd rest ih =>
    intro s
    cases hd with
    | left o => simpa [processHands] using ih (processLeftHand o s)
    | right o => simpa [processHands] using ih (processRightHand env now o s).1

/-! ## Claim theorems -/

/-- C1: the spec requires a dead-band on leaving FOCUS — with the mode at
FOCUS and the smoothed pinch value strictly between the release threshold 0.4
and the activation threshold 0.6 (for example 0.5), the mode must stay FOCUS.
The mode machine of `processLeftHand` violates this: at smoothed pinch value
0.5 the FOCUS-retention branch requires the value to be below 0.4, does not
fire, and the machine falls through to the open-palm branches, leaving FOCUS
(to AGGREGATE with the open palm inactive, to BROWSE with it active) on that
very frame. -/
theorem focus_deadband_code_bug :
    decideMode AppMode.FOCUS (1/2) 0 = AppMode.AGGREGATE ∧
    decideMode AppMode.FOCUS (1/2) 1 = AppMode.BROWSE ∧
    AppMode.AGGREGATE ≠ AppMode.FOCUS ∧ AppMode.BROWSE ≠ AppMode.FOCUS := by
  refine ⟨by norm_num [decideMode], by norm_num [decideMode], by decide, by decide⟩

lemma foldl_pinchHysteresis_in_band (ds : List ℚ) :
    ∀ b : Bool, (∀ x ∈ ds, PINCH_THRESHOLD_ON < x ∧ x < PINCH_THRESHOLD_OFF) →
      ds.foldl pinchHysteresis b = b := by
  induction ds with
  | nil => intro b _; rfl
  | cons x rest ih =>
    intro b h
    have hx := h x (List.mem_cons_self x rest)
    have hstep : pinchHysteresis b x = b := by
      simp [pinchHysteresis, not_lt.mpr (le_of_lt hx.1), not_lt.mpr (le_of_lt hx.2)]
    have hrest : ∀ y ∈ rest, PINCH_THRESHOLD_ON < y ∧ y < PINCH_THRESHOLD_OFF :=
      fun y hy => h y (List.mem_cons_of_mem x hy)
    simpa [List.foldl_cons, hstep] using ih b hrest

/-- C2: the right-hand pinch hysteresis — a distance below the ON threshold
forces pinching, a distance above the OFF threshold forces its release, any
distance between the thresholds keeps the previous state, and a whole distance
sequence strictly between the thresholds never changes the state. -/
theorem pinch_hysteresis_spec (d : ℚ) (b : Bool) (ds : List ℚ)
    (h : ∀ x ∈ ds, PINCH_THRESHOLD_ON < x ∧ x < PINCH_THRESHOLD_OFF) :
    (d < PINCH_THRESHOLD_ON → pinchHysteresis b d = true) ∧
    (d > PINCH_THRESHOLD_OFF → pinchHysteresis b d = false) ∧
    (PINCH_THRESHOLD_ON ≤ d → d ≤ PINCH_THRESHOLD_OFF → pinchHysteresis b d = b) ∧
    ds.foldl pinchHysteresis b = b := by
  refine ⟨?_, ?_, ?_, ?_⟩
  · intro hlt; simp [pinchHysteresis, hlt]
  · intro hgt
    have h1 : ¬ d < PINCH_THRESHOLD_ON := by
      have : PINCH_THRESHOLD_ON < PINCH_THRESHOLD_OFF := by
        norm_num [PINCH_THRESHOLD_ON, PINCH_THRESHOLD_OFF]
      push_neg; linarith
    simp [pinchHysteresis, h1, hgt]
  · intro h1 h2
    simp [pinchHysteresis, not_lt.mpr h1, not_lt.mpr h2]
  · exact foldl_pinchHysteresis_in_band ds b h

/-- Witness for C2 at concrete inputs: dead-band distance 0.045 and the
strictly-in-band sequence [0.05, 0.045, 0.041]. -/
theorem pinch_hysteresis_spec_witness :
    (∀ x ∈ [(0.05 : ℚ), 0.045, 0.041], PINCH_THRESHOLD_ON < x ∧ x < PINCH_THRESHOLD_OFF) ∧
    (((0.045 : ℚ) < PINCH_THRESHOLD_ON → pinchHysteresis true 0.045 = true) ∧
     ((0.045 : ℚ) > PINCH_THRESHOLD_OFF → pinchHysteresis true 0.045 = false) ∧
     (PINCH_THRESHOLD_ON ≤ (0.045 : ℚ) → (0.045 : ℚ) ≤ PINCH_THRESHOLD_OFF →
       pinchHysteresis true 0.045 = true) ∧
     [(0.05 : ℚ), 0.045, 0.041].foldl pinchHysteresis true = true) := by
  have hband : ∀ x ∈ [(0.05 : ℚ), 0.045, 0.041],
      PINCH_THRESHOLD_ON < x ∧ x < PINCH_THRESHOLD_OFF := by
    intro x hx
    simp only [List.mem_cons, List.mem_singleton] at hx
    rcases hx with h | h | h | h <;> first
      | (subst h; constructor <;> norm_num [PINCH_THRESHOLD_ON, PINCH_THRESHOLD_OFF])
      | cases h
  exact ⟨hband, pinch_hysteresis_spec 0.045 true [0.05, 0.045, 0.041] hband⟩

@[simp] lemma AppState_ite_dispatch (c : Prop) [Decidable c] (a b : AppState) :
    (if c then a else b).dispatch = if c then a.dispatch else b.dispatch := by
  split <;> rfl

@[simp] lemma AppState_ite_mode (c : Prop) [Decidable c] (a b : AppState) :
    (if c then a else b).mode = if c then a.mode else b.mode := by
  split <;> rfl

@[simp] lemma AppState_ite_cursor (c : Prop) [Decidable c] (a b : AppState) :
    (if c then a else b).cursor = if c then a.cursor else b.cursor := by
  split <;> rfl

@[simp] lemma AppState_ite_isPinchingRef (c : Prop) [Decidable c] (a b : AppState) :
    (if c then a else b).isPinchingRef = if c then a.isPinchingRef else b.isPinchingRef := by
  split <;> rfl

@[simp] lemma AppState_ite_anchorPos (c : Prop) [Decidable c] (a b : AppState) :
    (if c then a else b).anchorPos = if c then a.anchorPos else b.anchorPos := by
  split <;> rfl

@[simp] lemma AppState_ite_lastLeftHandTime (c : Prop) [Decidable c] (a b : AppState) :
    (if c then a else b).lastLeftHandTime = if c then a.lastLeftHandTime else b.lastLeftHandTime := by
  split <;> rfl

lemma resetDrag_open (s : AppState) (t : ℕ)
    (hD : s.dispatch.isDraggingUI = true) (hT : s.dispatch.dragTarget = some t) :
    resetDrag s =
      ({ s with dispatch := { s.dispatch with isDraggingUI := false, dragTarget := none } },
        [⟨t, EvKind.pointerup, none⟩]) := by
  unfold resetDrag
  rw [hD, hT]
  simp

lemma resetDrag_closed (s : AppState) (hD : s.dispatch.isDraggingUI = false) :
    resetDrag s = (s, []) := by
  unfold resetDrag
  rw [hD]
  simp

/-- C4 counterexample: with a drag session open on element 7 and the right
hand absent in the frame, the emitted trace is a single coordinate-less
`pointerup` — the claimed `mouseup` and `click` events are never dispatched. -/
theorem hand_loss_release_cex :
    (frameStep env1 0 []
        { initialState with dispatch := ⟨true, some 7, none, 0⟩ }).2 =
      [⟨7, EvKind.pointerup, none⟩] ∧
    (∀ e ∈ (frameStep env1 0 []
        { initialState with dispatch := ⟨true, some 7, none, 0⟩ }).2,
      e.kind ≠ EvKind.mouseup ∧ e.kind ≠ EvKind.click) := by
  have h : (frameStep env1 0 []
      { initialState with dispatch := ⟨true, some 7, none, 0⟩ }).2 =
      [⟨7, EvKind.pointerup, none⟩] := by
    simp [frameStep, resetDrag, initialState]
  refine ⟨h, ?_⟩
  rw [h]
  intro e he
  simp only [List.mem_singleton] at he
  subst he
  exact ⟨by decide, by decide⟩

/-- C4 (amended): if the right hand disappears while a drag session is open,
the frame immediately tears the session down — the drag flags are cleared and
a single coordinate-less `pointerup` is dispatched on the original drag
target; unlike a normal pinch release, no `mouseup` and no `click` are
synthesized. -/
theorem hand_loss_release_amended (env : Env) (now : ℤ) (hands : List HandObs)
    (s : AppState) (t : ℕ)
    (hR : hands.any HandObs.isRight = false)
    (hD : s.dispatch.isDraggingUI = true) (hT : s.dispatch.dragTarget = some t) :
    (frameStep env now hands s).1.dispatch.isDraggingUI = false ∧
    (frameStep env now hands s).1.dispatch.dragTarget = none ∧
    (frameStep env now hands s).2 = [⟨t, EvKind.pointerup, none⟩] := by
  by_cases hh : hands = []
  · subst hh
    have h2 : ∀ s' : AppState, s'.dispatch = s.dispatch →
        resetDrag s' =
          ({ s' with dispatch := { s'.dispatch with isDraggingUI := false, dragTarget := none } },
            [⟨t, EvKind.pointerup, none⟩]) := by
      intro s' hs'
      exact resetDrag_open s' t (hs' ▸ hD) (hs' ▸ hT)
    simp only [frameStep, ne_eq, not_true_eq_false, if_false, reduceIte]
    rw [h2 _ (by simp [ite_self])]
    simp
  · obtain ⟨_, _, _, _, _, _, hdisp, hevs⟩ :=
      processHands_right_inv env now hands s hR
    have key : ∀ s4 : AppState, s4.dispatch = s.dispatch →
        (resetDrag s4).1.dispatch.isDraggingUI = false ∧
        (resetDrag s4).1.dispatch.dragTarget = none ∧
        (resetDrag s4).2 = [⟨t, EvKind.pointerup, none⟩] := by
      intro s4 h4
      rw [resetDrag_open s4 t (by rw [h4]; exact hD) (by rw [h4]; exact hT)]
      exact ⟨rfl, rfl, rfl⟩
    simp only [frameStep, hh, ne_eq, not_false_eq_true, if_true, hR,
      Bool.false_eq_true, not_false_iff, hevs, List.nil_append]
    apply key
    simp [hdisp]

/-- C5 counterexample: at exactly 500 ms since the last Left-hand observation
(frame timestamp 500, last-seen timestamp 0) with no hands detected, the
strict `> 500` check does not fire and a FOCUS mode survives the frame. -/
theorem idle_timeout_boundary_cex :
    ((500 : ℤ) - ({ initialState with mode := AppMode.FOCUS } : AppState).lastLeftHandTime = 500) ∧
    (frameStep env1 500 [] { initialState with mode := AppMode.FOCUS }).1.mode = AppMode.FOCUS := by
  constructor
  · simp [initialState]
  · simp [frameStep, resetDrag, initialState]

/-- C5 (amended): a frame with no Left-hand observation whose timestamp is
strictly more than 500 ms past the last frame with one forces the mode to
AGGREGATE, whatever the mode was; at exactly 500 ms the timeout does not yet
fire. -/
theorem idle_timeout_amended (env : Env) (now : ℤ) (hands : List HandObs) (s : AppState)
    (hL : hands.any HandObs.isLeft = false)
    (ht : now - s.lastLeftHandTime > 500) :
    (frameStep env now hands s).1.mode = AppMode.AGGREGATE := by
  by_cases hh : hands = []
  · subst hh
    have hmode : ∀ s2 : AppState, s2.mode = AppMode.AGGREGATE →
        (resetDrag s2).1.mode = AppMode.AGGREGATE := by
      intro s2 h2
      rw [← h2]
      exact resetDrag_mode s2
    simp only [frameStep, ne_eq, not_true_eq_false, if_false, reduceIte]
    apply hmode
    simp [ht]
  · have hlast := processHands_lastLeftHandTime env now hands s
    have key : ∀ s4 : AppState, s4.mode = AppMode.AGGREGATE →
        (resetDrag s4).1.mode = AppMode.AGGREGATE := by
      intro s4 h4
      rw [← h4]
      exact resetDrag_mode s4
    by_cases hr : hands.any HandObs.isRight = true
    · simp only [frameStep, hh, ne_eq, not_false_eq_true, if_true, hL, hr,
        Bool.false_eq_true, not_false_iff, not_true_eq_false, if_false]
      simp [hlast, ht]
    · rw [Bool.not_eq_true] at hr
      simp only [frameStep, hh, ne_eq, not_false_eq_true, if_true, hL, hr,
        Bool.false_eq_true, not_false_iff]
      apply key
      simp [hlast, ht]

/-- Witness for C5 (amended) at a concrete frame: empty detection at
timestamp 501 with the last Left observation at 0, starting from the initial
state. -/
theorem idle_timeout_amended_witness :
    (([] : List HandObs).any HandObs.isLeft = false) ∧
    ((501 : ℤ) - initialState.lastLeftHandTime > 500) ∧
    (frameStep env1 501 [] initialState).1.mode = AppMode.AGGREGATE :=
  ⟨rfl, by norm_num [initialState],
    idle_timeout_amended env1 501 [] initialState rfl (by norm_num [initialState])⟩

lemma processLeftHand_not_dragging (o : LeftObs) (s : AppState)
    (hb : s.dispatch.isDraggingUI = false) :
    processLeftHand o s = { s with
      leftPinchSmoother := (s.leftPinchSmoother.update (if o.pinchDist < 0.05 then 1 else 0)).2
      leftOpenPalmSmoother := (s.leftOpenPalmSmoother.update (if 3 ≤ o.extendedCount then 1 else 0)).2
      leftHandX_EMA := (s.leftHandX_EMA.update (1 - o.middleX)).2
      mode := decideMode s.mode
        (s.leftPinchSmoother.update (if o.pinchDist < 0.05 then 1 else 0)).1
        (s.leftOpenPalmSmoother.update (if 3 ≤ o.extendedCount then 1 else 0)).1
      scrollOffset :=
        if decideMode s.mode
            (s.leftPinchSmoother.update (if o.pinchDist < 0.05 then 1 else 0)).1
            (s.leftOpenPalmSmoother.update (if 3 ≤ o.extendedCount then 1 else 0)).1
            = AppMode.BROWSE
        then s.scrollOffset + ((s.leftHandX_EMA.update (1 - o.middleX)).1 - 0.5) * 0.15
        else s.scrollOffset } := by
  simp [processLeftHand, hb]

lemma processRightHand_left_irrel (env : Env) (now : ℤ) (o : RightObs) (s : AppState)
    (m : AppMode) (sc : ℚ) (e1 e2 e3 : EMA ℚ) :
    processRightHand env now o
        { s with
            mode := m
            scrollOffset := sc
            leftHandX_EMA := e1
            leftPinchSmoother := e2
            leftOpenPalmSmoother := e3 } =
      ({ (processRightHand env now o s).1 with
            mode := m
            scrollOffset := sc
            leftHandX_EMA := e1
            leftPinchSmoother := e2
            leftOpenPalmSmoother := e3 },
        (processRightHand env now o s).2) := rfl

/-- C3 counterexample: the two per-frame hand processors do share mutable
state — the drag-in-progress flag — and do not commute.  From the initial
state, with a Left observation that activates the pinch signal and a Right
observation that starts a drag on the element under the cursor: processing
Left first yields mode FOCUS, while processing Right first makes
`processLeftHand` early-return behind the freshly set drag flag, leaving mode
AGGREGATE. -/
theorem left_right_order_cex :
    (processRightHand env1 0 ⟨0.5, 0.5, 0.03⟩
        (processLeftHand ⟨0.03, 0, 0.5⟩ initialState)).1.mode = AppMode.FOCUS ∧
    (processLeftHand ⟨0.03, 0, 0.5⟩
        (processRightHand env1 0 ⟨0.5, 0.5, 0.03⟩ initialState).1).mode = AppMode.AGGREGATE ∧
    AppMode.FOCUS ≠ AppMode.AGGREGATE := by
  refine ⟨?_, ?_, by decide⟩
  · rw [processRightHand_mode]
    norm_num [processLeftHand, decideMode, EMA.update, initialState]
  · have hd : (processRightHand env1 0 ⟨0.5, 0.5, 0.03⟩ initialState).1.dispatch.isDraggingUI
        = true := by
      norm_num [processRightHand, handleCursorInteraction, hoverEvents, pinchHysteresis,
        EMA.update, lerp, initialState, env1, PINCH_THRESHOLD_ON, PINCH_THRESHOLD_OFF,
        ANCHOR_STRENGTH]
    have hskip : processLeftHand ⟨0.03, 0, 0.5⟩
        (processRightHand env1 0 ⟨0.5, 0.5, 0.03⟩ initialState).1 =
        (processRightHand env1 0 ⟨0.5, 0.5, 0.03⟩ initialState).1 := by
      simp [processLeftHand, hd]
    rw [hskip, processRightHand_mode]
    rfl

/-- C3 (amended): the left- and right-hand frame steps commute — producing
the same final state (mode, scrollOffset, cursor, drag state and all) and the
same event trace — exactly in the frames where the right-hand step leaves the
drag-in-progress flag unchanged; the flag is shared mutable state between the
two steps (left-hand processing early-returns while a drag is open), so
frames that start or end a drag session are genuinely order-dependent. -/
theorem left_right_commute_amended (env : Env) (now : ℤ) (oL : LeftObs) (oR : RightObs)
    (s : AppState)
    (h : (processRightHand env now oR s).1.dispatch.isDraggingUI = s.dispatch.isDraggingUI) :
    processRightHand env now oR (processLeftHand oL s) =
      (processLeftHand oL (processRightHand env now oR s).1,
        (processRightHand env now oR s).2) := by
  by_cases hb : s.dispatch.isDraggingUI = true
  · have hL1 : processLeftHand oL s = s := by simp [processLeftHand, hb]
    have h2 : (processRightHand env now oR s).1.dispatch.isDraggingUI = true := by rw [h, hb]
    have hL2 : processLeftHand oL (processRightHand env now oR s).1 =
        (processRightHand env now oR s).1 := by simp [processLeftHand, h2]
    rw [hL1, hL2]
  · rw [Bool.not_eq_true] at hb
    have h2 : (processRightHand env now oR s).1.dispatch.isDraggingUI = false := by rw [h, hb]
    rw [processLeftHand_not_dragging oL s hb]
    rw [processRightHand_left_irrel]
    rw [processLeftHand_not_dragging oL _ h2]
    simp only [processRightHand_mode, processRightHand_scrollOffset,
      processRightHand_leftHandX, processRightHand_leftPinchSmoother,
      processRightHand_leftOpenPalmSmoother]

/-- Witness for C3 (amended) at a concrete frame: a non-pinching Right
observation leaves the drag flag untouched, so the two processing orders
agree from the initial state. -/
theorem left_right_commute_amended_witness :
    ((processRightHand env1 0 ⟨0.5, 0.5, 0.1⟩ initialState).1.dispatch.isDraggingUI
        = initialState.dispatch.isDraggingUI) ∧
    processRightHand env1 0 ⟨0.5, 0.5, 0.1⟩ (processLeftHand ⟨0.03, 4, 0.5⟩ initialState) =
      (processLeftHand ⟨0.03, 4, 0.5⟩ (processRightHand env1 0 ⟨0.5, 0.5, 0.1⟩ initialState).1,
        (processRightHand env1 0 ⟨0.5, 0.5, 0.1⟩ initialState).2) := by
  have h : (processRightHand env1 0 ⟨0.5, 0.5, 0.1⟩ initialState).1.dispatch.isDraggingUI
      = initialState.dispatch.isDraggingUI := by
    norm_num [processRightHand, handleCursorInteraction, hoverEvents, pinchHysteresis,
      EMA.update, lerp, initialState, env1, PINCH_THRESHOLD_ON, PINCH_THRESHOLD_OFF]
  exact ⟨h, left_right_commute_amended env1 0 ⟨0.03, 4, 0.5⟩ ⟨0.5, 0.5, 0.1⟩ initialState h⟩

/-- A sample right-hand state in the middle of a sustained pinch: pinch flag
set, anchor captured at the origin, cursor smoothers holding 0. -/
def sPinch : AppState :=
  { initialState with
      isPinchingRef := true
      anchorPos := some (0, 0)
      cursorX_EMA := ⟨CURSOR_SMOOTHING, some 0⟩
      cursorY_EMA := ⟨CURSOR_SMOOTHING, some 0⟩ }

/-- C6: anchoring of the right-hand cursor.  (i) While a pinch is sustained
with anchor `a`, the reported cursor is the fixed blend
`ANCHOR_STRENGTH·anchor + (1-ANCHOR_STRENGTH)·liveSmoothed` per axis and the
anchor is kept; (ii) the rising edge captures the current smoothed position as
the anchor (so that frame's output equals the smoothed position); (iii) the
falling edge clears the anchor and the output returns to the live smoothed
position; (iv) when not pinching the output equals the live smoothed position
exactly; (v) the blend of two distinct points `A`, `B` is the affine point
`A + t(B-A)` with `t = 1 - ANCHOR_STRENGTH ∈ (0, 1/2)` — strictly between the
two — and lies strictly closer to `A` than to `B` in squared distance. -/
theorem anchor_blend_spec (env : Env) (now : ℤ) (o : RightObs) (s : AppState) :
    (∀ a : ℚ × ℚ, s.isPinchingRef = true → ¬ o.pinchDist > PINCH_THRESHOLD_OFF →
      s.anchorPos = some a →
      (processRightHand env now o s).1.cursor.x =
        ANCHOR_STRENGTH * a.1 + (1 - ANCHOR_STRENGTH) *
          (s.cursorX_EMA.update ((1 - o.indexX) * env.innerWidth)).1 ∧
      (processRightHand env now o s).1.cursor.y =
        ANCHOR_STRENGTH * a.2 + (1 - ANCHOR_STRENGTH) *
          (s.cursorY_EMA.update (o.indexY * env.innerHeight)).1 ∧
      (processRightHand env now o s).1.anchorPos = some a) ∧
    (s.isPinchingRef = false → o.pinchDist < PINCH_THRESHOLD_ON →
      (processRightHand env now o s).1.anchorPos =
        some ((s.cursorX_EMA.update ((1 - o.indexX) * env.innerWidth)).1,
          (s.cursorY_EMA.update (o.indexY * env.innerHeight)).1) ∧
      (processRightHand env now o s).1.cursor.x =
        (s.cursorX_EMA.update ((1 - o.indexX) * env.innerWidth)).1 ∧
      (processRightHand env now o s).1.cursor.y =
        (s.cursorY_EMA.update (o.indexY * env.innerHeight)).1) ∧
    (s.isPinchingRef = true → o.pinchDist > PINCH_THRESHOLD_OFF →
      (processRightHand env now o s).1.anchorPos = none ∧
      (processRightHand env now o s).1.cursor.x =
        (s.cursorX_EMA.update ((1 - o.indexX) * env.innerWidth)).1 ∧
      (processRightHand env now o s).1.cursor.y =
        (s.cursorY_EMA.update (o.indexY * env.innerHeight)).1) ∧
    (s.isPinchingRef = false → ¬ o.pinchDist < PINCH_THRESHOLD_ON →
      (processRightHand env now o s).1.cursor.x =
        (s.cursorX_EMA.update ((1 - o.indexX) * env.innerWidth)).1 ∧
      (processRightHand env now o s).1.cursor.y =
        (s.cursorY_EMA.update (o.indexY * env.innerHeight)).1) ∧
    (∀ A B : ℚ × ℚ, A ≠ B →
      lerp A.1 B.1 (1 - ANCHOR_STRENGTH) = A.1 + (1 - ANCHOR_STRENGTH) * (B.1 - A.1) ∧
      lerp A.2 B.2 (1 - ANCHOR_STRENGTH) = A.2 + (1 - ANCHOR_STRENGTH) * (B.2 - A.2) ∧
      0 < 1 - ANCHOR_STRENGTH ∧ 1 - ANCHOR_STRENGTH < 1/2 ∧
      dist2 (lerp A.1 B.1 (1 - ANCHOR_STRENGTH), lerp A.2 B.2 (1 - ANCHOR_STRENGTH)) A <
        dist2 (lerp A.1 B.1 (1 - ANCHOR_STRENGTH), lerp A.2 B.2 (1 - ANCHOR_STRENGTH)) B) := by
  refine ⟨?_, ?_, ?_, ?_, ?_⟩
  · intro a h1 h2 h3
    have hp : pinchHysteresis true o.pinchDist = true := by
      simp [pinchHysteresis, h2]
    refine ⟨?_, ?_, ?_⟩ <;>
      · simp [processRightHand, hp, h1, h3, lerp]
        try ring_nf
  · intro h1 h2
    have hp : pinchHysteresis false o.pinchDist = true := by
      simp [pinchHysteresis, h2]
    refine ⟨?_, ?_, ?_⟩ <;>
      · simp [processRightHand, hp, h1, lerp]
        try ring_nf
  · intro h1 h2
    have hON : ¬ o.pinchDist < PINCH_THRESHOLD_ON := by
      have : PINCH_THRESHOLD_ON < PINCH_THRESHOLD_OFF := by
        norm_num [PINCH_THRESHOLD_ON, PINCH_THRESHOLD_OFF]
      push_neg
      linarith
    have hp : pinchHysteresis true o.pinchDist = false := by
      simp [pinchHysteresis, h2, hON]
    refine ⟨?_, ?_, ?_⟩ <;> simp [processRightHand, hp, h1]
  · intro h1 h2
    have hp : pinchHysteresis false o.pinchDist = false := by
      simp [pinchHysteresis, h2]
    refine ⟨?_, ?_⟩ <;> simp [processRightHand, hp, h1]
  · intro A B hAB
    have hS : 0 < (B.1 - A.1) ^ 2 + (B.2 - A.2) ^ 2 := by
      by_cases h1 : A.1 = B.1
      · have h2 : A.2 ≠ B.2 := fun h2 => hAB (Prod.ext_iff.mpr ⟨h1, h2⟩)
        have h3 : 0 < (B.2 - A.2) ^ 2 :=
          pow_two_pos_of_ne_zero (sub_ne_zero.mpr (Ne.symm h2))
        nlinarith [sq_nonneg (B.1 - A.1)]
      · have h3 : 0 < (B.1 - A.1) ^ 2 :=
          pow_two_pos_of_ne_zero (sub_ne_zero.mpr (fun hh => h1 hh.symm))
        nlinarith [sq_nonneg (B.2 - A.2)]
    refine ⟨by rw [lerp]; ring, by rw [lerp]; ring,
      by norm_num [ANCHOR_STRENGTH], by norm_num [ANCHOR_STRENGTH], ?_⟩
    simp only [dist2, lerp, ANCHOR_STRENGTH]
    nlinarith [hS]

/-- Witness for C6 at a concrete sustained-pinch frame (anchor at the origin,
dead-band distance 0.05) and at the concrete distinct points (0,0), (1,1) for
the betweenness conjunct. -/
theorem anchor_blend_spec_witness :
    (sPinch.isPinchingRef = true ∧ ¬ ((0.05 : ℚ) > PINCH_THRESHOLD_OFF) ∧
      sPinch.anchorPos = some (0, 0)) ∧
    ((processRightHand env1 0 ⟨0.5, 0.5, 0.05⟩ sPinch).1.cursor.x =
        ANCHOR_STRENGTH * 0 + (1 - ANCHOR_STRENGTH) *
          (sPinch.cursorX_EMA.update ((1 - (0.5 : ℚ)) * env1.innerWidth)).1 ∧
      (processRightHand env1 0 ⟨0.5, 0.5, 0.05⟩ sPinch).1.cursor.y =
        ANCHOR_STRENGTH * 0 + (1 - ANCHOR_STRENGTH) *
          (sPinch.cursorY_EMA.update ((0.5 : ℚ) * env1.innerHeight)).1 ∧
      (processRightHand env1 0 ⟨0.5, 0.5, 0.05⟩ sPinch).1.anchorPos = some (0, 0)) ∧
    (((0 : ℚ), (0 : ℚ)) ≠ ((1 : ℚ), (1 : ℚ)) ∧
      dist2 (lerp 0 1 (1 - ANCHOR_STRENGTH), lerp 0 1 (1 - ANCHOR_STRENGTH)) (0, 0) <
        dist2 (lerp 0 1 (1 - ANCHOR_STRENGTH), lerp 0 1 (1 - ANCHOR_STRENGTH)) (1, 1)) := by
  have h2 : ¬ ((0.05 : ℚ) > PINCH_THRESHOLD_OFF) := by norm_num [PINCH_THRESHOLD_OFF]
  have hne : (((0 : ℚ), (0 : ℚ)) : ℚ × ℚ) ≠ ((1 : ℚ), (1 : ℚ)) := by
    norm_num [Prod.ext_iff]
  have main := anchor_blend_spec env1 0 ⟨0.5, 0.5, 0.05⟩ sPinch
  exact ⟨⟨rfl, h2, rfl⟩, main.1 (0, 0) rfl h2 rfl,
    hne, (main.2.2.2.2 (0, 0) (1, 1) hne).2.2.2.2⟩

/-- A second sample environment whose hit test always resolves element `2` —
distinct from the drag targets used in the drag-capture scenarios. -/
def env2 : Env where
  innerWidth := 1
  innerHeight := 1
  elemAt := fun _ _ => some 2
  scrollContainer := none
  contains := fun _ _ => false

/-- C7 counterexample: during a sustained pinch with drag target 5, the
dispatcher still sends a per-frame hover `pointermove` to element 2 — the
element currently under the cursor — so not every move event of the frame
targets the drag target. -/
theorem drag_capture_cex :
    (⟨2, EvKind.pointermove, some ((0.5 : ℚ), (0.5 : ℚ))⟩ : Ev) ∈
      (handleCursorInteraction env2 0.5 0.5 0 true true ⟨true, some 5, some 2, 0⟩).2 ∧
    (2 : ℕ) ≠ 5 := by
  constructor
  · simp [handleCursorInteraction, hoverEvents, env2]
  · decide

/-- C7 (amended): once a drag session is open on target `t`, every sustained
frame forwards a drag `pointermove` to `t` itself at the current position —
regardless of which element the hit test currently resolves — alongside the
hover simulation for the element under the cursor, and keeps the drag session;
the falling-edge frame dispatches `pointerup`, `mouseup`, `click` on `t` at
the current position and clears the drag session. -/
theorem drag_capture_amended (env : Env) (x y dY : ℚ) (ds : DispatchState) (t : ℕ)
    (hD : ds.isDraggingUI = true) (hT : ds.dragTarget = some t) :
    ((handleCursorInteraction env x y dY true true ds).2 =
        hoverEvents (env.elemAt x y) ds.lastHoveredElement x y ++
          [⟨t, EvKind.pointermove, some (x, y)⟩] ∧
      (handleCursorInteraction env x y dY true true ds).1.dragTarget = some t ∧
      (handleCursorInteraction env x y dY true true ds).1.isDraggingUI = true) ∧
    ((handleCursorInteraction env x y dY false true ds).2 =
        hoverEvents (env.elemAt x y) ds.lastHoveredElement x y ++
          [⟨t, EvKind.pointerup, some (x, y)⟩, ⟨t, EvKind.mouseup, some (x, y)⟩,
            ⟨t, EvKind.click, some (x, y)⟩] ∧
      (handleCursorInteraction env x y dY false true ds).1.dragTarget = none ∧
      (handleCursorInteraction env x y dY false true ds).1.isDraggingUI = false) := by
  constructor
  · refine ⟨?_, ?_, ?_⟩ <;> simp [handleCursorInteraction, hD, hT]
  · refine ⟨?_, ?_, ?_⟩ <;> simp [handleCursorInteraction, hD, hT]

/-- Witness for C7 (amended) with drag target 5 under environment `env2`. -/
theorem drag_capture_amended_witness :
    ((⟨true, some 5, none, 0⟩ : DispatchState).isDraggingUI = true ∧
      (⟨true, some 5, none, 0⟩ : DispatchState).dragTarget = some 5) ∧
    (((handleCursorInteraction env2 0.25 0.25 0 true true ⟨true, some 5, none, 0⟩).2 =
        hoverEvents (env2.elemAt 0.25 0.25) (⟨true, some 5, none, 0⟩ : DispatchState).lastHoveredElement 0.25 0.25 ++
          [⟨5, EvKind.pointermove, some (0.25, 0.25)⟩] ∧
      (handleCursorInteraction env2 0.25 0.25 0 true true ⟨true, some 5, none, 0⟩).1.dragTarget = some 5 ∧
      (handleCursorInteraction env2 0.25 0.25 0 true true ⟨true, some 5, none, 0⟩).1.isDraggingUI = true) ∧
    ((handleCursorInteraction env2 0.25 0.25 0 false true ⟨true, some 5, none, 0⟩).2 =
        hoverEvents (env2.elemAt 0.25 0.25) (⟨true, some 5, none, 0⟩ : DispatchState).lastHoveredElement 0.25 0.25 ++
          [⟨5, EvKind.pointerup, some (0.25, 0.25)⟩, ⟨5, EvKind.mouseup, some (0.25, 0.25)⟩,
            ⟨5, EvKind.click, some (0.25, 0.25)⟩] ∧
      (handleCursorInteraction env2 0.25 0.25 0 false true ⟨true, some 5, none, 0⟩).1.dragTarget = none ∧
      (handleCursorInteraction env2 0.25 0.25 0 false true ⟨true, some 5, none, 0⟩).1.isDraggingUI = false)) :=
  ⟨⟨rfl, rfl⟩, drag_capture_amended env2 0.25 0.25 0 ⟨true, some 5, none, 0⟩ 5 rfl rfl⟩

/-- C8 counterexample: in a frame whose detection contains a Left hand but no
Right hand, the cursor's `clicking` flag is forced to `false` while the
debounced pinch state `isPinchingRef` is left `true` — the two disagree after
the frame, refuting the claimed invariant `clicking = debounced pinch`. -/
theorem cursor_contract_cex :
    (frameStep env1 0 [HandObs.left ⟨1, 0, 0.5⟩] sPinch).1.cursor.clicking = false ∧
    (frameStep env1 0 [HandObs.left ⟨1, 0, 0.5⟩] sPinch).1.isPinchingRef = true := by
  constructor
  · simp [frameStep, processHands, HandObs.isLeft, HandObs.isRight]
  · simp [frameStep, processHands, HandObs.isLeft, HandObs.isRight]
    rfl

/-- C8 (amended): after every frame update (frames carrying at most one
observation per handedness label, in either order), `active` is true exactly
when a Right-hand observation was present; `lastClickTime` is refreshed on a
pinch rising edge and retained otherwise; and `clicking` equals the debounced
pinch state whenever a Right hand is observed — but when the Right hand is
absent in a frame with some hand detected, `clicking` is forced `false` while
the debounced state is retained (and with no hands at all both are simply
retained), so the two can disagree. -/
theorem cursor_contract_amended (env : Env) (now : ℤ) (oL : Option LeftObs)
    (oR : Option RightObs) (ord : Bool) (s : AppState) :
    (frameStep env now (mkFrame oL oR ord) s).1.cursor.active = oR.isSome ∧
    (frameStep env now (mkFrame oL oR ord) s).1.isPinchingRef =
      (match oR with
       | some o => pinchHysteresis s.isPinchingRef o.pinchDist
       | none => s.isPinchingRef) ∧
    (frameStep env now (mkFrame oL oR ord) s).1.cursor.clicking =
      (match oR, oL with
       | some o, _ => pinchHysteresis s.isPinchingRef o.pinchDist
       | none, some _ => false
       | none, none => s.cursor.clicking) ∧
    (frameStep env now (mkFrame oL oR ord) s).1.cursor.lastClickTime =
      (match oR with
       | some o =>
           if pinchHysteresis s.isPinchingRef o.pinchDist && !s.isPinchingRef then now
           else s.cursor.lastClickTime
       | none => s.cursor.lastClickTime) := by
  rcases oL with _ | oL' <;> rcases oR with _ | oR' <;> cases ord <;>
    refine ⟨?_, ?_, ?_, ?_⟩ <;>
      simp [mkFrame, frameStep, processHands, HandObs.isLeft, HandObs.isRight]

@[simp] lemma Prod_fst_ite {α β : Type} (c : Prop) [Decidable c] (a b : α × β) :
    (if c then a else b).1 = if c then a.1 else b.1 := by split <;> rfl

@[simp] lemma Prod_snd_ite {α β : Type} (c : Prop) [Decidable c] (a b : α × β) :
    (if c then a else b).2 = if c then a.2 else b.2 := by split <;> rfl

lemma hoverEvents_no_press (element lastHovered : Option ℕ) (x y : ℚ) :
    ∀ e ∈ hoverEvents element lastHovered x y,
      e.kind ≠ EvKind.pointerdown ∧ e.kind ≠ EvKind.mousedown := by
  intro e he
  unfold hoverEvents at he
  rcases element with _ | a <;> rcases lastHovered with _ | b <;>
      (try split at he) <;>
      simp only [List.cons_append, List.nil_append, List.append_nil] at he <;>
      fin_cases he <;> exact ⟨by simp, by simp⟩

lemma handleCursorInteraction_sustained_no_press (env : Env) (x y dY : ℚ)
    (ds : DispatchState) :
    ∀ e ∈ (handleCursorInteraction env x y dY true true ds).2,
      e.kind ≠ EvKind.pointerdown ∧ e.kind ≠ EvKind.mousedown := by
  intro e he
  unfold handleCursorInteraction at he
  simp only [Bool.not_true, Bool.and_false, Bool.and_self, Bool.true_and, Bool.false_and,
    Bool.false_eq_true, if_false, reduceIte] at he
  rcases hdrag : ds.isDraggingUI with _ | _
  · rw [hdrag] at he
    simp only [Bool.false_eq_true, if_false, reduceIte] at he
    exact hoverEvents_no_press _ _ _ _ e he
  · rw [hdrag] at he
    simp only [reduceIte] at he
    rcases hdt : ds.dragTarget with _ | t
    · rw [hdt] at he
      simp only [] at he
      exact hoverEvents_no_press _ _ _ _ e he
    · rw [hdt] at he
      simp only [List.mem_append, List.mem_singleton] at he
      rcases he with he | rfl
      · exact hoverEvents_no_press _ _ _ _ e he
      · exact ⟨by simp, by simp⟩

lemma processRightHand_anchor_sustained (env : Env) (now : ℤ) (o : RightObs) (s : AppState)
    (h1 : s.isPinchingRef = true) (hp : pinchHysteresis true o.pinchDist = true) :
    (processRightHand env now o s).1.anchorPos = s.anchorPos := by
  simp [processRightHand, h1, hp]

lemma processRightHand_sustained_no_press (env : Env) (now : ℤ) (o : RightObs) (s : AppState)
    (h1 : s.isPinchingRef = true) (hp : pinchHysteresis true o.pinchDist = true) :
    ∀ e ∈ (processRightHand env now o s).2,
      e.kind ≠ EvKind.pointerdown ∧ e.kind ≠ EvKind.mousedown := by
  intro e he
  simp only [processRightHand, h1, hp] at he
  exact handleCursorInteraction_sustained_no_press env _ _ _ _ e he

/-- C10: the debounced pinch state survives a right-hand dropout.  If the
pinch state is `true` when a frame arrives without a Right-hand observation,
the state is not reset; when the Right hand reappears in a later frame with
thumb-to-index distance still below the ON threshold, no rising edge occurs:
the reappearance frame dispatches no `pointerdown`/`mousedown` press sequence,
captures no new anchor (the anchor ref is exactly as before the dropout), and
leaves `lastClickTime` untouched. -/
theorem pinch_persistence_across_dropout (env : Env) (now1 now2 : ℤ)
    (oL1 oL2 : Option LeftObs) (ord1 ord2 : Bool) (o : RightObs) (s : AppState)
    (hPinch : s.isPinchingRef = true) (hd : o.pinchDist < PINCH_THRESHOLD_ON) :
    (frameStep env now1 (mkFrame oL1 none ord1) s).1.isPinchingRef = true ∧
    (frameStep env now2 (mkFrame oL2 (some o) ord2)
      (frameStep env now1 (mkFrame oL1 none ord1) s).1).1.isPinchingRef = true ∧
    (frameStep env now2 (mkFrame oL2 (some o) ord2)
      (frameStep env now1 (mkFrame oL1 none ord1) s).1).1.anchorPos = s.anchorPos ∧
    (frameStep env now2 (mkFrame oL2 (some o) ord2)
      (frameStep env now1 (mkFrame oL1 none ord1) s).1).1.cursor.lastClickTime =
        s.cursor.lastClickTime ∧
    (∀ e ∈ (frameStep env now2 (mkFrame oL2 (some o) ord2)
        (frameStep env now1 (mkFrame oL1 none ord1) s).1).2,
      e.kind ≠ EvKind.pointerdown ∧ e.kind ≠ EvKind.mousedown) := by
  have hp : pinchHysteresis true o.pinchDist = true := by simp [pinchHysteresis, hd]
  have h1i : (frameStep env now1 (mkFrame oL1 none ord1) s).1.isPinchingRef = true := by
    rcases oL1 with _ | oL1' <;> cases ord1 <;>
      simpa [mkFrame, frameStep, processHands, HandObs.isLeft, HandObs.isRight] using hPinch
  have h1a : (frameStep env now1 (mkFrame oL1 none ord1) s).1.anchorPos = s.anchorPos := by
    rcases oL1 with _ | oL1' <;> cases ord1 <;>
      simp [mkFrame, frameStep, processHands, HandObs.isLeft, HandObs.isRight]
  have h1t : (frameStep env now1 (mkFrame oL1 none ord1) s).1.cursor.lastClickTime =
      s.cursor.lastClickTime := by
    rcases oL1 with _ | oL1' <;> cases ord1 <;>
      simp [mkFrame, frameStep, processHands, HandObs.isLeft, HandObs.isRight]
  have ha1 : (processRightHand env now2 o
      (frameStep env now1 (mkFrame oL1 none ord1) s).1).1.anchorPos = s.anchorPos := by
    rw [processRightHand_anchor_sustained env now2 o _ h1i hp, h1a]
  have ha2 : ∀ oL2' : LeftObs, (processRightHand env now2 o
      (processLeftHand oL2' (frameStep env now1 (mkFrame oL1 none ord1) s).1)).1.anchorPos
        = s.anchorPos := by
    intro oL2'
    rw [processRightHand_anchor_sustained env now2 o _ (by simp [h1i]) hp]
    simp [h1a]
  have hno1 : ∀ e ∈ (processRightHand env now2 o
      (frameStep env now1 (mkFrame oL1 none ord1) s).1).2,
      e.kind ≠ EvKind.pointerdown ∧ e.kind ≠ EvKind.mousedown :=
    processRightHand_sustained_no_press env now2 o _ h1i hp
  have hno2 : ∀ (oL2' : LeftObs), ∀ e ∈ (processRightHand env now2 o
      (processLeftHand oL2' (frameStep env now1 (mkFrame oL1 none ord1) s).1)).2,
      e.kind ≠ EvKind.pointerdown ∧ e.kind ≠ EvKind.mousedown :=
    fun oL2' => processRightHand_sustained_no_press env now2 o _ (by simp [h1i]) hp
  set r1 : AppState := (frameStep env now1 (mkFrame oL1 none ord1) s).1 with hr1
  refine ⟨h1i, ?_, ?_, ?_, ?_⟩
  · rcases oL2 with _ | oL2' <;> cases ord2 <;>
      simp [mkFrame, frameStep, processHands, HandObs.isLeft, HandObs.isRight, h1i, hp]
  · rcases oL2 with _ | oL2' <;> cases ord2 <;>
      simp [mkFrame, frameStep, processHands, HandObs.isLeft, HandObs.isRight, ha1, ha2]
  · rcases oL2 with _ | oL2' <;> cases ord2 <;>
      simp [mkFrame, frameStep, processHands, HandObs.isLeft, HandObs.isRight, h1i, h1t, hp]
  · rcases oL2 with _ | oL2' <;> cases ord2 <;>
      · intro e he
        simp only [mkFrame, frameStep, processHands, HandObs.isLeft, HandObs.isRight] at he
        first
          | exact hno1 e (by simpa using he)
          | exact hno2 _ e (by simpa using he)

/-- Witness for C10: a sustained-pinch state loses the right hand for one
empty frame and the hand reappears at distance 0.03 (below the ON threshold);
no press events fire and the anchor and click timestamp are intact. -/
theorem pinch_persistence_across_dropout_witness :
    sPinch.isPinchingRef = true ∧ (0.03 : ℚ) < PINCH_THRESHOLD_ON ∧
    ((frameStep env1 0 (mkFrame none none true) sPinch).1.isPinchingRef = true ∧
     (frameStep env1 1 (mkFrame none (some ⟨0.5, 0.5, 0.03⟩) true)
       (frameStep env1 0 (mkFrame none none true) sPinch).1).1.isPinchingRef = true ∧
     (frameStep env1 1 (mkFrame none (some ⟨0.5, 0.5, 0.03⟩) true)
       (frameStep env1 0 (mkFrame none none true) sPinch).1).1.anchorPos = sPinch.anchorPos ∧
     (frameStep env1 1 (mkFrame none (some ⟨0.5, 0.5, 0.03⟩) true)
       (frameStep env1 0 (mkFrame none none true) sPinch).1).1.cursor.lastClickTime =
         sPinch.cursor.lastClickTime ∧
     (∀ e ∈ (frameStep env1 1 (mkFrame none (some ⟨0.5, 0.5, 0.03⟩) true)
         (frameStep env1 0 (mkFrame none none true) sPinch).1).2,
       e.kind ≠ EvKind.pointerdown ∧ e.kind ≠ EvKind.mousedown)) := by
  have hd : (0.03 : ℚ) < PINCH_THRESHOLD_ON := by norm_num [PINCH_THRESHOLD_ON]
  exact ⟨rfl, hd, pinch_persistence_across_dropout env1 0 1 none none true true
    ⟨0.5, 0.5, 0.03⟩ sPinch rfl hd⟩

/-- Repeated application of `EMA.update` to a constant input stream,
vocabulary for the convergence property of the smoother. -/
def EMA.iterate {K : Type} [Field K] (e : EMA K) (x : K) : ℕ → EMA K
  | 0 => e
  | n + 1 => ((e.iterate x n).update x).2

lemma ema_iterate_closed_form (a c y0 : ℝ) : ∀ n : ℕ,
    ((EMA.mk a (some y0)).iterate c n).value = some (c + (1 - a) ^ n * (y0 - c)) ∧
    ((EMA.mk a (some y0)).iterate c n).alpha = a := by
  intro n
  induction n with
  | zero =>
    refine ⟨?_, rfl⟩
    simp [EMA.iterate]
    try ring
  | succ n ih =>
    obtain ⟨hv, ha⟩ := ih
    refine ⟨?_, ?_⟩
    · simp [EMA.iterate, EMA.update, hv, ha]
      ring
    · simp [EMA.iterate, EMA.update, hv, ha]

lemma ema_iterate_out (a c y0 : ℝ) (n : ℕ) :
    (((EMA.mk a (some y0)).iterate c n).update c).1 = c + (1 - a) ^ (n + 1) * (y0 - c) := by
  obtain ⟨hv, ha⟩ := ema_iterate_closed_form a c y0 n
  simp [EMA.update, hv, ha]
  ring

/-- C9: the EMA contract with coefficient `a ∈ (0,1]` — the first update after
construction or after a reset returns its input verbatim; a later update
returns `a·x + (1-a)·previous` and stores that value; with `a = 1` every
update returns its input; and for a constant input stream `c` from any stored
starting value `y0` the output sequence approaches `c` monotonically (the
distance to `c` never increases) and converges to `c`. -/
theorem ema_contract (a x v c y0 : ℝ) (n : ℕ) (h0 : 0 < a) (h1 : a ≤ 1) :
    ((EMA.mk a none).update x).1 = x ∧
    (((EMA.mk a (some v)).reset).update x).1 = x ∧
    ((EMA.mk a (some v)).update x).1 = a * x + (1 - a) * v ∧
    ((EMA.mk a (some v)).update x).2.value = some (a * x + (1 - a) * v) ∧
    (a = 1 → ((EMA.mk a (some v)).update x).1 = x) ∧
    |(((EMA.mk a (some y0)).iterate c (n + 1)).update c).1 - c| ≤
      |(((EMA.mk a (some y0)).iterate c n).update c).1 - c| ∧
    Filter.Tendsto (fun m => (((EMA.mk a (some y0)).iterate c m).update c).1)
      Filter.atTop (nhds c) := by
  have hr0 : (0 : ℝ) ≤ 1 - a := by linarith
  have hr1 : 1 - a < 1 := by linarith
  refine ⟨rfl, rfl, rfl, rfl, ?_, ?_, ?_⟩
  · intro ha
    simp [EMA.update, ha]
  · rw [ema_iterate_out, ema_iterate_out]
    rw [add_sub_cancel_left, add_sub_cancel_left]
    rw [abs_mul, abs_mul]
    refine mul_le_mul_of_nonneg_right ?_ (abs_nonneg _)
    rw [abs_of_nonneg (pow_nonneg hr0 _), abs_of_nonneg (pow_nonneg hr0 _)]
    exact pow_le_pow_of_le_one hr0 (by linarith) (Nat.le_succ _)
  · have t1 : Filter.Tendsto (fun m : ℕ => (1 - a) ^ m) Filter.atTop (nhds 0) :=
      tendsto_pow_atTop_nhds_zero_of_lt_one hr0 hr1
    have t2 : Filter.Tendsto (fun m : ℕ => c + ((1 - a) ^ m * (1 - a)) * (y0 - c))
        Filter.atTop (nhds (c + (0 * (1 - a)) * (y0 - c))) :=
      (((t1.mul_const (1 - a)).mul_const (y0 - c)).const_add c)
    have t3 : Filter.Tendsto (fun m : ℕ => c + ((1 - a) ^ m * (1 - a)) * (y0 - c))
        Filter.atTop (nhds c) := by simpa using t2
    refine Filter.Tendsto.congr (fun m => ?_) t3
    rw [ema_iterate_out]
    ring

/-- Witness for C9 at coefficient 1 (so the pass-through conjunct is active),
input 3, stored value 2, constant stream 5 from start 7, step 0. -/
theorem ema_contract_witness :
    (0 : ℝ) < 1 ∧ (1 : ℝ) ≤ 1 ∧
    (((EMA.mk (1 : ℝ) none).update 3).1 = 3 ∧
     (((EMA.mk (1 : ℝ) (some 2)).reset).update 3).1 = 3 ∧
     ((EMA.mk (1 : ℝ) (some 2)).update 3).1 = 1 * 3 + (1 - 1) * 2 ∧
     ((EMA.mk (1 : ℝ) (some 2)).update 3).2.value = some (1 * 3 + (1 - 1) * 2) ∧
     ((1 : ℝ) = 1 → ((EMA.mk (1 : ℝ) (some 2)).update 3).1 = 3) ∧
     |(((EMA.mk (1 : ℝ) (some 7)).iterate 5 (0 + 1)).update 5).1 - 5| ≤
       |(((EMA.mk (1 : ℝ) (some 7)).iterate 5 0).update 5).1 - 5| ∧
     Filter.Tendsto (fun m => (((EMA.mk (1 : ℝ) (some 7)).iterate 5 m).update 5).1)
       Filter.atTop (nhds 5)) :=
  ⟨one_pos, le_refl 1, ema_contract 1 3 2 5 7 0 one_pos (le_refl 1)⟩

/-- Witness for C4 (amended): a frame carrying only a Left observation while
a drag session is open on element 7 tears the session down with a single
`pointerup`. -/
theorem hand_loss_release_amended_witness :
    ([HandObs.left ⟨1, 0, 0.5⟩].any HandObs.isRight = false) ∧
    ({ initialState with dispatch := ⟨true, some 7, none, 0⟩ } : AppState).dispatch.isDraggingUI
      = true ∧
    ({ initialState with dispatch := ⟨true, some 7, none, 0⟩ } : AppState).dispatch.dragTarget
      = some 7 ∧
    ((frameStep env1 0 [HandObs.left ⟨1, 0, 0.5⟩]
        { initialState with dispatch := ⟨true, some 7, none, 0⟩ }).1.dispatch.isDraggingUI
          = false ∧
      (frameStep env1 0 [HandObs.left ⟨1, 0, 0.5⟩]
        { initialState with dispatch := ⟨true, some 7, none, 0⟩ }).1.dispatch.dragTarget
          = none ∧
      (frameStep env1 0 [HandObs.left ⟨1, 0, 0.5⟩]
        { initialState with dispatch := ⟨true, some 7, none, 0⟩ }).2
          = [⟨7, EvKind.pointerup, none⟩]) :=
  ⟨rfl, rfl, rfl,
    hand_loss_release_amended env1 0 [HandObs.left ⟨1, 0, 0.5⟩]
      { initialState with dispatch := ⟨true, some 7, none, 0⟩ } 7 rfl rfl rfl⟩

end Gesture
